import Mathlib

/-!
A shallow embedding of the manuscript pipeline of `src/main.py`
(empire-auto-winds): the character-to-word alignment builder of
`elevenlabs_tts_alignment`, the pattern-based alignment corrector
`replace_sublist` with its `POST_REPLACE` rules, the retry loop of
`generate_voice_from_text`, the change detector `manuscript_changed`,
the canned error/disallowed manuscripts, and the `/api/manuscript`
endpoint over an explicit catalog.  Theorems settle the behavioural
claims about these components.
-/

set_option maxHeartbeats 1000000

namespace Winds

/-- `MIN_TIME = 1` (seconds) from main.py line 71; durations are clamped to
`MIN_TIME * 1000` milliseconds. -/
def MIN_TIME : Nat := 1

/-- A word-level alignment span, mirroring the dicts
`{"text": .., "start": .., "length": ..}` built by
`elevenlabs_tts_alignment` and rewritten by `replace_sublist`.
Times are in milliseconds. -/
structure Span where
  text : String
  start : Nat
  length : Nat
deriving DecidableEq

/-- One character of the provider's timing stream: the character `c`, its
start time `a` in ms (relative to its own websocket message, like
`charStartTimesMs`) and its duration `l` in ms (`charDurationsMs`). -/
structure CharTiming where
  c : Char
  a : Nat
  l : Nat
deriving DecidableEq

/-- The state of the alignment-building loop in `elevenlabs_tts_alignment`
(main.py lines 203-252): running audio offset `start`, the current word
buffer `word` (characters paired with their absolute start times), the
accumulated duration `len` (`length` in the Python) and the emitted spans
`out` (`alignment` in the Python). -/
structure BuildState where
  start : Nat
  word : List (Char × Nat)
  len : Nat
  out : List Span
deriving DecidableEq

/-- `"".join(w[0] for w in word)` -/
def wordText (w : List (Char × Nat)) : String := String.mk (w.map Prod.fst)

/-- `word[0][1]`: the recorded absolute start time of the first buffered
character (0 for the empty buffer, which the Python never reads). -/
def wordStart (w : List (Char × Nat)) : Nat :=
  match w with
  | [] => 0
  | p :: _ => p.2

/-- One iteration of the character loop (main.py lines 221-240):
`length += l`; if the buffer is non-empty and the character is whitespace,
emit a span `{text, start = word[0][1], length = max(length, MIN_TIME*1000)}`
and reset buffer and length; otherwise append `(c, a + start)` to the
buffer. -/
def processChar (st : BuildState) (t : CharTiming) : BuildState :=
  let len := st.len + t.l
  if st.word ≠ [] ∧ t.c.isWhitespace then
    { st with
      out := st.out ++ [⟨wordText st.word, wordStart st.word, max len (MIN_TIME * 1000)⟩],
      word := [], len := 0 }
  else
    { st with word := st.word ++ [(t.c, t.a + st.start)], len := len }

/-- Total duration of one message's characters. -/
def msgDuration (msg : List CharTiming) : Nat := (msg.map (·.l)).sum

/-- Processing of one websocket alignment payload (main.py lines 220-252):
run the character loop over its characters, flush a non-empty pending
buffer as one more span, reset `word` and `length`, and advance the
running offset by `a + l` of the last character of the message.  (For an
empty character list the Python would reuse stale loop variables; the
model leaves the offset unchanged in that never-occurring case.) -/
def processMessage (st : BuildState) (msg : List CharTiming) : BuildState :=
  let st1 := msg.foldl processChar st
  let out2 :=
    if st1.word ≠ [] then
      st1.out ++ [⟨wordText st1.word, wordStart st1.word, max st1.len (MIN_TIME * 1000)⟩]
    else st1.out
  { start := st1.start + (match msg.getLast? with | some t => t.a + t.l | none => 0),
    word := [], len := 0, out := out2 }

/-- The alignment builder: fold all alignment payloads of the stream from
the initial state `start = 0`, `word = []`, `length = 0`, `alignment = []`
and return the emitted spans. -/
def buildAlignment (msgs : List (List CharTiming)) : List Span :=
  (msgs.foldl processMessage ⟨0, [], 0, []⟩).out

/-- Span starts are non-decreasing. -/
def startsSorted : List Span → Bool
  | [] => true
  | [_] => true
  | x :: y :: rest => decide (x.start ≤ y.start) && startsSorted (y :: rest)

/-- Each span ends no later than the next one starts. -/
def nonOverlapping : List Span → Bool
  | [] => true
  | [_] => true
  | x :: y :: rest => decide (x.start + x.length ≤ y.start) && nonOverlapping (y :: rest)

/-- A message is gapless from time `t0`: each character starts exactly when
the previous one ended. -/
def gaplessFrom : Nat → List CharTiming → Bool
  | _, [] => true
  | t0, x :: xs => (x.a == t0) && gaplessFrom (t0 + x.l) xs

/-- A well-formed provider stream: every alignment payload is non-empty and
its characters are gapless and zero-based. -/
def wellFormedStream (msgs : List (List CharTiming)) : Bool :=
  msgs.all fun m => (!m.isEmpty) && gaplessFrom 0 m

/-- The total duration of the stream's characters (the length of the
synthesized audio it describes). -/
def streamDuration (msgs : List (List CharTiming)) : Nat := (msgs.map msgDuration).sum

/-- The sum of the durations of a span list. -/
def durationSum (spans : List Span) : Nat := (spans.map (·.length)).sum

/-- The characters of a string, lower-cased (`str.lower()`). -/
def lowerData (s : String) : List Char := s.data.map Char.toLower

/-- The per-span test of `replace_sublist` (main.py lines 310-318): a regex
rule matches via `re.compile(s, re.IGNORECASE).match(d["text"])` (modelled
by the supplied matcher `rm`), a plain rule via
`s.lower() == d["text"].lower()`. -/
def tokenMatches (isRegex : Bool) (rm : String → String → Bool) (pat txt : String) : Bool :=
  if isRegex then rm pat txt else lowerData pat == lowerData txt

/-- `all(... for d, s in zip(seq[i+offset : i+offset+len(search)], search))`. -/
def windowMatches (isRegex : Bool) (rm : String → String → Bool)
    (search : List String) (window : List Span) : Bool :=
  (window.zip search).all fun p => tokenMatches isRegex rm p.2 p.1.text

/-- The span appended on a match (main.py lines 320-334), expressed on the
suffix of the list starting at the scan position: text is the joined
leading context plus a space (when `offset` is non-zero) plus the
replacement, start is the first span's start, length is the clamped sum of
all replaced spans' lengths. -/
def replacementSpan (rest : List Span) (search : List String) (replacement : String)
    (offset : Nat) : Span :=
  { text := (if offset ≠ 0 then
        String.intercalate " " ((rest.take offset).map Span.text) ++ " "
      else "") ++ replacement,
    start := match rest with | [] => 0 | x :: _ => x.start,
    length := max (((rest.take (offset + search.length)).map Span.length).sum)
      (MIN_TIME * 1000) }

/-- The scan loop of `replace_sublist` (main.py lines 306-338), written on
the suffix of the sequence from the current index `i`; the Python bound
`i <= len(seq) - offset - len(search)` becomes
`offset + len(search) <= len(rest)`.  On a match the scan jumps over the
whole window (`i += len(search) + offset`), otherwise it advances by one.
`fuel` only ensures termination: one unit is spent per loop iteration, and
every iteration consumes at least one element as long as
`offset + len(search) ≥ 1` (for `offset = 0` and an empty pattern the
Python loop never terminates; the model then stops when fuel runs out). -/
def replaceSublistGo (search : List String) (replacement : String) (offset : Nat)
    (isRegex : Bool) (rm : String → String → Bool) : Nat → List Span → List Span
  | _, [] => []
  | 0, rest => rest
  | fuel + 1, x :: xs =>
    if offset + search.length ≤ (x :: xs).length ∧
        windowMatches isRegex rm search (((x :: xs).drop offset).take search.length) then
      replacementSpan (x :: xs) search replacement offset ::
        replaceSublistGo search replacement offset isRegex rm fuel
          ((x :: xs).drop (offset + search.length))
    else
      x :: replaceSublistGo search replacement offset isRegex rm fuel xs

/-- `replace_sublist(seq, search, replacement, offset, is_regex)` with the
regex matcher made explicit. -/
def replace_sublist (seq : List Span) (search : List String) (replacement : String)
    (offset : Nat) (isRegex : Bool) (rm : String → String → Bool) : List Span :=
  replaceSublistGo search replacement offset isRegex rm seq.length seq

/-- The apostrophe character, kept out of string literals. -/
def apos : Char := Char.ofNat 39

/-- The apostrophe as a one-character string. -/
def aposS : String := String.mk [apos]

/-- The fourth pattern token of the active `POST_REPLACE` rule:
`Empire` followed by `[,;.:?!'\")]*`. -/
def empirePattern : String := "Empire[,;.:?!" ++ aposS ++ "\")]*"

/-- `POST_REPLACE` (main.py lines 57-60): the single active rule
`(["Year", "of", "the", "Empire[,;.:?!'\")]*"], "YE", 1)`. -/
def POST_REPLACE : List (List String × String × Nat) :=
  [(["Year", "of", "the", empirePattern], "YE", 1)]

/-- `startsWithChars p s` decides whether `p` is a prefix of `s`. -/
def startsWithChars : List Char → List Char → Bool
  | [], _ => true
  | _ :: _, [] => false
  | a :: as, b :: bs => (a == b) && startsWithChars as bs

/-- Model of `re.compile(pat, re.IGNORECASE).match(txt)` for the four
`POST_REPLACE` pattern tokens: `re.match` is anchored at the start only,
so each of the literal tokens matches iff it is a case-insensitive prefix
of the span's text, and the trailing punctuation class with `*` in
`Empire[,;.:?!'\")]*` can match the empty string, so that token matches
iff `Empire` is a case-insensitive prefix. -/
def postReplaceRegexMatch (pat txt : String) : Bool :=
  startsWithChars (lowerData (if pat == empirePattern then "Empire" else pat))
    (lowerData txt)

/-- The alignment-correction pass of `generate_voice_from_text`
(main.py lines 372-373): every `POST_REPLACE` rule is applied in order via
`replace_sublist(alignment, f1, t1, offset, True)`. -/
def correctAlignment (alignment : List Span) : List Span :=
  POST_REPLACE.foldl
    (fun al r => replace_sublist al r.1 r.2.1 r.2.2 true postReplaceRegexMatch) alignment

/-- The outcome of one `elevenlabs_tts_alignment` attempt, as dispatched by
the `try`/`except` arms of `generate_voice_from_text` (main.py lines
351-370): success, `ElevenLabsQuotaExceededError`,
`ElevenLabsSystemBusyError`, `websockets...ConnectionClosedError`, or any
other exception (in particular the bare `ElevenLabsError` raised for an
unrecognized provider error, main.py line 216), which no arm catches. -/
inductive TtsAttempt where
  | ok (result : Nat)
  | quotaExceeded
  | systemBusy
  | connectionClosed
  | otherError
deriving DecidableEq

/-- How a run of the retry loop of `generate_voice_from_text` ends:
with a synthesized result, with an exception propagating out of the
function, or still waiting for further attempts. -/
inductive TtsOutcome where
  | success (result : Nat)
  | raised
  | pending
deriving DecidableEq

/-- The `while True` retry loop of `generate_voice_from_text` (main.py
lines 350-370), driven by the sequence of attempt outcomes.  Returns the
list of sleeps performed (in seconds) and how the loop ended.  On quota
exhaustion it sleeps `hours * 60 * 60` seconds and then sets
`hours = min(24, hours + 1)`; on system-busy or a closed connection it
sleeps 10 seconds; any other exception propagates.  The caller starts
every request with `hours = 1`. -/
def generateVoiceRetryLoop (hours : Nat) : List TtsAttempt → List Nat × TtsOutcome
  | [] => ([], .pending)
  | .ok r :: _ => ([], .success r)
  | .quotaExceeded :: rest =>
    let res := generateVoiceRetryLoop (min 24 (hours + 1)) rest
    (hours * 60 * 60 :: res.1, res.2)
  | .systemBusy :: rest =>
    let res := generateVoiceRetryLoop hours rest
    (10 :: res.1, res.2)
  | .connectionClosed :: rest =>
    let res := generateVoiceRetryLoop hours rest
    (10 :: res.1, res.2)
  | .otherError :: _ => ([], .raised)

/-- Exceptions that can reach the `try` of the worker loop
`article_processor` (main.py lines 857-916). -/
inductive WorkerException where
  | connectError
  | elevenLabsError
  | otherException
deriving DecidableEq

/-- Which exceptions the worker loop's `except` arm catches: only
`httpx.ConnectError` (main.py line 915). -/
def workerCatches : WorkerException → Bool
  | .connectError => true
  | _ => false

/-- A section of a manuscript document: `section_type`, the span texts, and
the optional audio/alignment file references (absent on the synthetic
placeholders). -/
structure Section where
  sectionType : String
  spans : List String
  audioPath : Option String := none
  audioUrl : Option String := none
  alignmentPath : Option String := none
  alignmentUrl : Option String := none
deriving DecidableEq

/-- A manuscript document as stored in the catalog.  `id` is the `_id`
key; `progress` abstracts the float progress fraction to a `Nat`
placeholder (no claim inspects its value); `lastmod` abstracts the
timestamp. -/
structure Manuscript where
  id : String
  title : String
  url : Option String
  state : String
  sections : List Section
  forcedVoice : Option String := none
  progress : Option Nat := none
  lastmod : Option Nat := none
  completeAudioPath : Option String := none
  completeAudioUrl : Option String := none
  outroAudioPath : Option String := none
  outroAudioUrl : Option String := none
deriving DecidableEq

/-- `ARTICLE_REPR_KEYS = ["title", "url", "sections"]` and `article_repr`
(main.py lines 167-171): the projection of a manuscript onto the
content-relevant fields. -/
def article_repr (a : Manuscript) : String × Option String × List Section :=
  (a.title, a.url, a.sections)

/-- `manuscript_changed` (main.py lines 174-175):
`article_repr(article0) != article_repr(article1)`. -/
def manuscript_changed (article0 article1 : Manuscript) : Bool :=
  decide (article_repr article0 ≠ article_repr article1)

/-- `str.replace(" ", "_")`, written character-wise (the pattern and the
replacement are single characters). -/
def underscoreSpaces (s : String) : String :=
  String.mk (s.data.map fun c => if c = ' ' then '_' else c)

/-- `str.replace("_", " ")`, written character-wise. -/
def spaceUnderscores (s : String) : String :=
  String.mk (s.data.map fun c => if c = '_' then ' ' else c)

/-- Python `str.split()`: split on whitespace runs, dropping empty
tokens.  `cur` holds the current token's characters in reverse. -/
def pySplitAux : List Char → List Char → List String
  | cur, [] => if cur.isEmpty then [] else [String.mk cur.reverse]
  | cur, c :: cs =>
    if c.isWhitespace then
      if cur.isEmpty then pySplitAux [] cs
      else String.mk cur.reverse :: pySplitAux [] cs
    else pySplitAux (c :: cur) cs

/-- Python `str.split()`. -/
def pySplit (s : String) : List String := pySplitAux [] s.data

/-- `text_to_spans` (main.py lines 378-382) on a plain string: one span
text per whitespace-separated token, with the en-dash replaced by a
hyphen.  (The Python also removes spaces and strips each token, both
no-ops on whitespace-split tokens.) -/
def text_to_spans (text : String) : List String :=
  (pySplit text).map fun t => String.mk (t.data.map fun c => if c = '–' then '-' else c)

def HOME_ID : String := ""

def DISALLOWED_ID : String := "text-to-speech:disallowed"

def ERROR_ID : String := "text-to-speech:error"

def PD_URL : String := "https://www.profounddecisions.co.uk"

def WIKI_URL : String := PD_URL ++ "/empire-wiki"

/-- `f"{n:04}"` for the audio file numbering. -/
def pad4 (n : Nat) : String :=
  let s := toString n
  String.mk (List.replicate (4 - s.length) '0') ++ s

/-- The audio directory of the canned error manuscript:
`DB_DIR / ERROR_ID / AUDIO_DIR_NAME` with `DB_DIR = /app/web/db`. -/
def errorAudioDir : String := "/app/web/db/" ++ ERROR_ID ++ "/audio"

/-- The audio directory of the canned disallowed manuscript. -/
def disallowedAudioDir : String := "/app/web/db/" ++ DISALLOWED_ID ++ "/audio"

/-- A section of a canned manuscript with its numbered audio/alignment
references under the given audio directory. -/
def cannedSection (audioDir : String) (sectionType : String) (i : Nat)
    (text : String) : Section :=
  { sectionType := sectionType,
    spans := text_to_spans text,
    audioPath := some (audioDir ++ "/" ++ pad4 i ++ ".mp3"),
    audioUrl := some ((audioDir ++ "/" ++ pad4 i ++ ".mp3").drop 8),
    alignmentPath := some (audioDir ++ "/" ++ pad4 i ++ ".json"),
    alignmentUrl := some ((audioDir ++ "/" ++ pad4 i ++ ".json").drop 8) }

/-- The explanatory paragraph of the error manuscript. -/
def errorParagraph : String :=
  "The system could not process this article. Either the article does not exist, or an error occurred during the download. The system will continue to attempt to process the article, in case the problem is temporary."

/-- `generate_error_manuscript` (main.py lines 385-431), file-system side
effects omitted: a canned manuscript titled after the identifier, with
state `"error"` unless the identifier is `ERROR_ID` itself, in which case
the state is `"done"`; the url is set only for identifiers other than
`ERROR_ID`. -/
def generate_error_manuscript (article_id : String) : Manuscript :=
  { id := article_id,
    title := spaceUnderscores article_id,
    url := if article_id ≠ ERROR_ID then some (WIKI_URL ++ "/" ++ article_id) else none,
    state := if article_id ≠ ERROR_ID then "error" else "done",
    forcedVoice := some "Ella",
    sections :=
      cannedSection errorAudioDir "h1" 0 "Error" ::
        [cannedSection errorAudioDir "p" 1 errorParagraph],
    outroAudioPath := some (errorAudioDir ++ "/outro.mp3"),
    outroAudioUrl := some "/db/text-to-speech:error/audio/outro.mp3" }

/-- The four explanatory paragraphs of the disallowed manuscript. -/
def disallowedParagraphs : List String :=
  ["This article is too long or unnecessary. The purpose of this system is to help other people and myself better understand the world of Empire. It is created and maintained out of the goodwill of a single player, and I do it entirely in my spare time without any help from Profound Decisions.",
   "I have no security protections, captchas, anti-DDOS, fancy load-balancing, IP registration, cookies, or anything else - the system" ++ aposS ++ "s viability relies entirely on its users not abusing it. Unfortunately, I have experienced some people abusing the system a bit, so I" ++ aposS ++ "ve been forced to start disallowing some articles.",
   "This article has been deemed unfit for text-to-speech, either automatically or directly by me. This is likely because it is either an internal Wiki-specific article, too long compared to how often it is updated, makes no sense as text-to-speech, or is generally unnecessary to understand the world and game of Empire.",
   "I try only to exclude an absolute minimum of articles, so if you think this is a mistake and the article should still have text-to-speech, please get in touch with me either by email (click the letter at the bottom right) or by finding me during out-of-character time at any of the Empire events (Bloodcrow Knott, Imperial Orcs)."]

/-- `generate_disallowed_manuscript` (main.py lines 434-483), file-system
side effects omitted: a canned manuscript with state `"disallowed"`
unless the identifier is `DISALLOWED_ID` itself, in which case the state
is `"done"`. -/
def generate_disallowed_manuscript (article_id : String) : Manuscript :=
  { id := article_id,
    title := spaceUnderscores article_id,
    url := if article_id ≠ DISALLOWED_ID then some (WIKI_URL ++ "/" ++ article_id) else none,
    state := if article_id ≠ DISALLOWED_ID then "disallowed" else "done",
    forcedVoice := some "Ella",
    sections :=
      cannedSection disallowedAudioDir "h1" 0 "Disallowed article" ::
        (disallowedParagraphs.enum.map fun p =>
          cannedSection disallowedAudioDir "p" (p.1 + 1) p.2),
    outroAudioPath := some (disallowedAudioDir ++ "/outro.mp3"),
    outroAudioUrl := some "/db/text-to-speech:disallowed/audio/outro.mp3" }

/-- `get_article` (main.py lines 831-835) over an explicit catalog
(association list standing for the `manuscripts` collection keyed by
`_id`): spaces are replaced by underscores and the empty identifier is
mapped to `HOME_ID`. -/
def get_article (catalog : List (String × Manuscript)) (article_id : String) :
    Option Manuscript :=
  let aid := underscoreSpaces article_id
  let aid := if aid = "" then HOME_ID else aid
  (catalog.find? (·.1 == aid)).map (·.2)

/-- `insert_or_replace` (main.py lines 813-817): upsert keyed by `_id`. -/
def insert_or_replace (catalog : List (String × Manuscript)) (m : Manuscript) :
    List (String × Manuscript) :=
  if (catalog.find? (·.1 == m.id)).isSome then
    catalog.map fun p => if p.1 == m.id then (m.id, m) else p
  else catalog ++ [(m.id, m)]

/-- The explanatory paragraph section of the stored placeholder (main.py
lines 1034-1045). -/
def stillProcessingParagraph : Section :=
  { sectionType := "p",
    spans :=
      ["The system is still processing this article.",
       "This will take anywhere from a couple of minutes to hours, depending on the article and how many articles are ahead of this one in the queue.",
       "You are welcome to come back to check the progress, but unfortunately the system is not smart enough to give you an estimate."] }

/-- The placeholder manuscript inserted into the catalog for a
not-yet-cataloged identifier (main.py lines 1022-1048). -/
def placeholderStored (article_id : String) : Manuscript :=
  { id := article_id,
    progress := some 0,
    title := article_id,
    url := some (WIKI_URL ++ "/" ++ article_id),
    state := "generating",
    sections :=
      [{ sectionType := "h1", spans := [article_id] }, stillProcessingParagraph] }

/-- The response returned for a not-yet-cataloged identifier (main.py
lines 1049-1081).  The Python dict has no `_id` key; the model reuses the
identifier, which no claim inspects. -/
def newArticleResponse (article_id : String) : Manuscript :=
  { id := article_id,
    title := article_id,
    url := some (WIKI_URL ++ "/" ++ article_id),
    state := "generating",
    sections :=
      [{ sectionType := "h1", spans := ["New Article!"] },
       { sectionType := "p",
         spans := ["Congratulations! You are the first to visit this article!"] },
       { sectionType := "p",
         spans :=
           ["Unfortunately, this means that the system has not yet generated this article.",
            "This it will take anywhere from a couple of minutes to hours, depending on the article and how many articles are ahead of this one in the queue.",
            "You are welcome to come back later to check again but unfortunately the system is not smart enough to give you an estimate."] }] }

/-- The `GET /api/manuscript/{article_id}` handler (main.py lines
1015-1081) as a function of the catalog: it always enqueues the raw
identifier; a cataloged manuscript is returned as-is; otherwise the
stored placeholder is upserted and the new-article response is returned.
Result: (response, new catalog, enqueued identifiers). -/
def manuscript_endpoint (catalog : List (String × Manuscript)) (article_id : String) :
    Manuscript × List (String × Manuscript) × List String :=
  match get_article catalog article_id with
  | some m => (m, catalog, [article_id])
  | none =>
    (newArticleResponse article_id,
      insert_or_replace catalog (placeholderStored article_id), [article_id])

/-- `update_manuscript` (main.py lines 820-828) with the audio generation
side effects omitted: the manuscript is marked `"done"`, stamped, and
upserted into the catalog. -/
def update_manuscript (catalog : List (String × Manuscript)) (m : Manuscript)
    (now : Nat) : List (String × Manuscript) :=
  insert_or_replace catalog { m with state := "done", lastmod := some now }

/-- Substring search on character lists. -/
def hasSubChars (pat : List Char) : List Char → Bool
  | [] => pat.isEmpty
  | c :: cs => startsWithChars pat (c :: cs) || hasSubChars pat cs

/-- `pat in s` (Python substring containment). -/
def strContains (s pat : String) : Bool := hasSubChars pat.data s.data

/-- Whether some span text of some section of a manuscript contains the
given substring. -/
def mentions (m : Manuscript) (pat : String) : Bool :=
  m.sections.any fun s => s.spans.any fun t => strContains t pat

/-! ### Lemmas about the alignment builder -/

theorem processChar_out_min (st : BuildState) (t : CharTiming)
    (h : ∀ sp ∈ st.out, MIN_TIME * 1000 ≤ sp.length) :
    ∀ sp ∈ (processChar st t).out, MIN_TIME * 1000 ≤ sp.length := by
  intro sp hsp
  simp only [processChar] at hsp
  split at hsp
  · rcases List.mem_append.mp hsp with h1 | h1
    · exact h sp h1
    · rcases List.mem_singleton.mp h1 with rfl
      exact Nat.le_max_right _ _
  · exact h sp hsp

theorem foldChars_out_min : ∀ (msg : List CharTiming) (st : BuildState),
    (∀ sp ∈ st.out, MIN_TIME * 1000 ≤ sp.length) →
    ∀ sp ∈ (msg.foldl processChar st).out, MIN_TIME * 1000 ≤ sp.length
  | [], _, h => h
  | t :: ts, st, h =>
    foldChars_out_min ts (processChar st t) (processChar_out_min st t h)

theorem processMessage_out_min (st : BuildState) (msg : List CharTiming)
    (h : ∀ sp ∈ st.out, MIN_TIME * 1000 ≤ sp.length) :
    ∀ sp ∈ (processMessage st msg).out, MIN_TIME * 1000 ≤ sp.length := by
  intro sp hsp
  have h1 := foldChars_out_min msg st h
  simp only [processMessage] at hsp
  split at hsp
  · rcases List.mem_append.mp hsp with h2 | h2
    · exact h1 sp h2
    · rcases List.mem_singleton.mp h2 with rfl
      exact Nat.le_max_right _ _
  · exact h1 sp hsp

theorem foldMessages_out_min : ∀ (msgs : List (List CharTiming)) (st : BuildState),
    (∀ sp ∈ st.out, MIN_TIME * 1000 ≤ sp.length) →
    ∀ sp ∈ (msgs.foldl processMessage st).out, MIN_TIME * 1000 ≤ sp.length
  | [], _, h => h
  | m :: ms, st, h =>
    foldMessages_out_min ms (processMessage st m) (processMessage_out_min st m h)

/-- The accumulated duration is never lost: each character's duration ends
up in `len` or, clamped from below, in an emitted span. -/
theorem processChar_durationSum (st : BuildState) (t : CharTiming) :
    durationSum st.out + st.len + t.l ≤
      durationSum (processChar st t).out + (processChar st t).len := by
  simp only [processChar]
  split
  · simp only [durationSum, List.map_append, List.sum_append, List.map_cons,
      List.map_nil, List.sum_cons, List.sum_nil]
    have : st.len + t.l ≤ max (st.len + t.l) (MIN_TIME * 1000) := Nat.le_max_left _ _
    omega
  · simp only [durationSum]
    omega

theorem foldChars_durationSum : ∀ (msg : List CharTiming) (st : BuildState),
    durationSum st.out + st.len + msgDuration msg ≤
      durationSum (msg.foldl processChar st).out + (msg.foldl processChar st).len
  | [], st => by simp [msgDuration]
  | t :: ts, st => by
    have h1 := processChar_durationSum st t
    have h2 := foldChars_durationSum ts (processChar st t)
    simp only [msgDuration, List.map_cons, List.sum_cons, List.foldl_cons] at *
    omega

/-- After any character step, an empty buffer comes with a zero
accumulated length. -/
theorem processChar_word_len (st : BuildState) (t : CharTiming) :
    (processChar st t).word = [] → (processChar st t).len = 0 := by
  simp only [processChar]
  split
  · intro _; rfl
  · intro h
    exact absurd h (by simp)

theorem foldChars_word_len : ∀ (msg : List CharTiming) (st : BuildState),
    (st.word = [] → st.len = 0) →
    ((msg.foldl processChar st).word = [] → (msg.foldl processChar st).len = 0)
  | [], _, h => h
  | t :: ts, st, _ =>
    foldChars_word_len ts (processChar st t) (processChar_word_len st t)

theorem processMessage_durationSum (st : BuildState) (msg : List CharTiming)
    (hinv : st.word = [] → st.len = 0) :
    durationSum st.out + st.len + msgDuration msg ≤
      durationSum (processMessage st msg).out := by
  have h1 := foldChars_durationSum msg st
  simp only [processMessage]
  split
  · simp only [durationSum, List.map_append, List.sum_append, List.map_cons,
      List.map_nil, List.sum_cons, List.sum_nil] at *
    have := Nat.le_max_left (msg.foldl processChar st).len (MIN_TIME * 1000)
    omega
  · -- the pending buffer is empty, so the pending length is zero
    rename_i hw
    have hlen : (msg.foldl processChar st).len = 0 :=
      foldChars_word_len msg st hinv (by simpa using hw)
    simp only [durationSum] at *
    omega

theorem foldMessages_durationSum : ∀ (msgs : List (List CharTiming)) (st : BuildState),
    (st.word = [] → st.len = 0) →
    durationSum st.out + streamDuration msgs ≤
      durationSum ((msgs.foldl processMessage st).out)
  | [], st, _ => by simp [streamDuration]
  | m :: ms, st, hinv => by
    have h1 := processMessage_durationSum st m hinv
    have h2 := foldMessages_durationSum ms (processMessage st m) (fun _ => rfl)
    simp only [streamDuration, List.map_cons, List.sum_cons, List.foldl_cons] at *
    omega

/-- The emitted spans of one character step, spelled out. -/
theorem processChar_out (st : BuildState) (t : CharTiming) :
    (processChar st t).out =
      if st.word ≠ [] ∧ t.c.isWhitespace then
        st.out ++ [⟨wordText st.word, wordStart st.word,
          max (st.len + t.l) (MIN_TIME * 1000)⟩]
      else st.out := by
  simp only [processChar]
  split <;> rfl

/-- The word buffer of one character step, spelled out. -/
theorem processChar_word (st : BuildState) (t : CharTiming) :
    (processChar st t).word =
      if st.word ≠ [] ∧ t.c.isWhitespace then []
      else st.word ++ [(t.c, t.a + st.start)] := by
  simp only [processChar]
  split <;> rfl

theorem processChar_start (st : BuildState) (t : CharTiming) :
    (processChar st t).start = st.start := by
  simp only [processChar]
  split <;> rfl

theorem processMessage_word (st : BuildState) (msg : List CharTiming) :
    (processMessage st msg).word = [] := rfl

theorem processMessage_len (st : BuildState) (msg : List CharTiming) :
    (processMessage st msg).len = 0 := rfl

theorem processMessage_out (st : BuildState) (msg : List CharTiming) :
    (processMessage st msg).out =
      if (msg.foldl processChar st).word ≠ [] then
        (msg.foldl processChar st).out ++
          [⟨wordText (msg.foldl processChar st).word,
            wordStart (msg.foldl processChar st).word,
            max (msg.foldl processChar st).len (MIN_TIME * 1000)⟩]
      else (msg.foldl processChar st).out := rfl

theorem processMessage_start (st : BuildState) (msg : List CharTiming) :
    (processMessage st msg).start =
      (msg.foldl processChar st).start +
        (match msg.getLast? with | some t => t.a + t.l | none => 0) := rfl

/-- The earliest time at which the next emitted span can start: the
recorded start of the pending word `w`, or the current absolute stream
position `pos`. -/
def headBound (w : List (Char × Nat)) (pos : Nat) : Nat :=
  match w with
  | [] => pos
  | p :: _ => p.2

/-- The ordering invariant of the building loop at absolute position
`pos`: the emitted spans are sorted by start, they all start no later than
the pending word (or the current position), and the pending word started
no later than the current position. -/
def StateInv (st : BuildState) (pos : Nat) : Prop :=
  startsSorted st.out = true ∧ (∀ sp ∈ st.out, sp.start ≤ headBound st.word pos) ∧
    headBound st.word pos ≤ pos

theorem StateInv_congr (st : BuildState) {p q : Nat} (h : StateInv st p) (e : p = q) :
    StateInv st q := e ▸ h

theorem startsSorted_append : ∀ (l : List Span) (s : Span),
    startsSorted l = true → (∀ sp ∈ l, sp.start ≤ s.start) →
    startsSorted (l ++ [s]) = true
  | [], _, _, _ => by simp [startsSorted]
  | [x], s, _, hb => by
    simp only [List.cons_append, List.nil_append, startsSorted, Bool.and_eq_true,
      decide_eq_true_eq]
    exact ⟨hb x (by simp), trivial⟩
  | x :: y :: t, s, hs, hb => by
    have hs' : x.start ≤ y.start ∧ startsSorted (y :: t) = true := by
      simp only [startsSorted, Bool.and_eq_true, decide_eq_true_eq] at hs
      exact hs
    have ih := startsSorted_append (y :: t) s hs'.2
      (fun sp h => hb sp (List.mem_cons_of_mem _ h))
    simp only [List.cons_append] at ih ⊢
    simp only [startsSorted, Bool.and_eq_true, decide_eq_true_eq]
    exact ⟨hs'.1, ih⟩

theorem headBound_eq_wordStart (w : List (Char × Nat)) (pos : Nat) (h : w ≠ []) :
    headBound w pos = wordStart w := by
  cases w with
  | nil => exact absurd rfl h
  | cons p w' => rfl

theorem processChar_inv (st : BuildState) (t : CharTiming) (pos : Nat)
    (hpos : t.a + st.start = pos) (hinv : StateInv st pos) :
    StateInv (processChar st t) (pos + t.l) := by
  obtain ⟨hsort, hball, hbpos⟩ := hinv
  by_cases hc : st.word ≠ [] ∧ t.c.isWhitespace
  · have hws : headBound st.word pos = wordStart st.word :=
      headBound_eq_wordStart st.word pos hc.1
    refine ⟨?_, ?_, ?_⟩
    · rw [processChar_out, if_pos hc]
      exact startsSorted_append _ _ hsort (fun sp h => hws ▸ hball sp h)
    · intro sp h
      rw [processChar_out, if_pos hc] at h
      rw [processChar_word, if_pos hc]
      show sp.start ≤ pos + t.l
      rcases List.mem_append.mp h with h1 | h1
      · exact (hball sp h1).trans (hbpos.trans (Nat.le_add_right _ _))
      · rcases List.mem_singleton.mp h1 with rfl
        exact (hws ▸ hbpos).trans (Nat.le_add_right _ _)
    · rw [processChar_word, if_pos hc]
      exact Nat.le_refl _
  · refine ⟨?_, ?_, ?_⟩
    · rw [processChar_out, if_neg hc]
      exact hsort
    · intro sp h
      rw [processChar_out, if_neg hc] at h
      rw [processChar_word, if_neg hc]
      have h0 := hball sp h
      cases hw : st.word with
      | nil =>
        rw [hw] at h0
        show sp.start ≤ t.a + st.start
        have h1 : sp.start ≤ pos := h0
        omega
      | cons p w' =>
        rw [hw] at h0
        show sp.start ≤ p.2
        exact h0
    · rw [processChar_word, if_neg hc]
      have h0 := hbpos
      cases hw : st.word with
      | nil =>
        show t.a + st.start ≤ pos + t.l
        omega
      | cons p w' =>
        rw [hw] at h0
        show p.2 ≤ pos + t.l
        have h1 : p.2 ≤ pos := h0
        omega

theorem foldChars_inv : ∀ (msg : List CharTiming) (st : BuildState) (rel : Nat),
    gaplessFrom rel msg = true → StateInv st (st.start + rel) →
    StateInv (msg.foldl processChar st) (st.start + rel + msgDuration msg) ∧
    (msg.foldl processChar st).start = st.start
  | [], st, rel, _, hinv => by
    refine ⟨StateInv_congr _ hinv ?_, rfl⟩
    simp [msgDuration]
  | x :: xs, st, rel, hg, hinv => by
    have hg' : x.a = rel ∧ gaplessFrom (rel + x.l) xs = true := by
      simp only [gaplessFrom, Bool.and_eq_true, beq_iff_eq] at hg
      exact hg
    have hpos : x.a + st.start = st.start + rel := by omega
    have h1 : StateInv (processChar st x) (st.start + rel + x.l) :=
      processChar_inv st x (st.start + rel) hpos hinv
    have hst : (processChar st x).start = st.start := processChar_start st x
    have h2 := foldChars_inv xs (processChar st x) (rel + x.l) hg'.2
      (StateInv_congr _ h1 (by rw [hst]; omega))
    refine ⟨StateInv_congr _ h2.1 ?_, by rw [List.foldl_cons, h2.2, hst]⟩
    simp only [msgDuration, List.map_cons, List.sum_cons]
    rw [hst]
    omega

theorem gaplessFrom_getLast : ∀ (msg : List CharTiming) (rel : Nat), msg ≠ [] →
    gaplessFrom rel msg = true →
    (match msg.getLast? with | some t => t.a + t.l | none => 0) =
      rel + msgDuration msg
  | [x], rel, _, hg => by
    simp only [gaplessFrom, Bool.and_eq_true, beq_iff_eq] at hg
    simp [List.getLast?, msgDuration, hg.1]
  | x :: y :: t, rel, _, hg => by
    have hg' : x.a = rel ∧ gaplessFrom (rel + x.l) (y :: t) = true := by
      simp only [gaplessFrom, Bool.and_eq_true, beq_iff_eq] at hg
      exact ⟨hg.1, by simp only [gaplessFrom, Bool.and_eq_true, beq_iff_eq]; exact hg.2⟩
    have ih := gaplessFrom_getLast (y :: t) (rel + x.l) (by simp) hg'.2
    rw [List.getLast?_cons_cons, ih]
    simp only [msgDuration, List.map_cons, List.sum_cons]
    omega

/-- The invariant between messages: buffer and accumulated length are
clear, the emitted spans are sorted, and they all start no later than the
running audio offset. -/
def RestInv (st : BuildState) : Prop :=
  st.word = [] ∧ st.len = 0 ∧ startsSorted st.out = true ∧
    ∀ sp ∈ st.out, sp.start ≤ st.start

theorem processMessage_inv (st : BuildState) (msg : List CharTiming)
    (hne : msg ≠ []) (hg : gaplessFrom 0 msg = true) (hinv : RestInv st) :
    RestInv (processMessage st msg) := by
  obtain ⟨hw, _, hsort, hball⟩ := hinv
  have hsi : StateInv st (st.start + 0) := by
    refine ⟨hsort, ?_, ?_⟩
    · intro sp h
      rw [hw]
      show sp.start ≤ st.start + 0
      have := hball sp h
      omega
    · rw [hw]
      show st.start + 0 ≤ st.start + 0
      exact Nat.le_refl _
  obtain ⟨⟨hsort1, hball1, hbpos1⟩, hst1⟩ := foldChars_inv msg st 0 hg hsi
  have hlast := gaplessFrom_getLast msg 0 hne hg
  refine ⟨processMessage_word st msg, processMessage_len st msg, ?_, ?_⟩
  · rw [processMessage_out]
    split
    · rename_i hwne
      exact startsSorted_append _ _ hsort1
        (fun sp h => (headBound_eq_wordStart _ _ hwne) ▸ hball1 sp h)
    · exact hsort1
  · intro sp h
    rw [processMessage_out] at h
    rw [processMessage_start, hlast, hst1]
    split at h
    · rename_i hwne
      rcases List.mem_append.mp h with h1 | h1
      · have := (hball1 sp h1).trans hbpos1
        omega
      · rcases List.mem_singleton.mp h1 with rfl
        show wordStart (msg.foldl processChar st).word ≤ st.start + (0 + msgDuration msg)
        have h2 := hbpos1
        rw [headBound_eq_wordStart _ _ hwne] at h2
        omega
    · have := (hball1 sp h).trans hbpos1
      omega

theorem foldMessages_inv : ∀ (msgs : List (List CharTiming)) (st : BuildState),
    wellFormedStream msgs = true → RestInv st →
    RestInv (msgs.foldl processMessage st)
  | [], _, _, hinv => hinv
  | m :: ms, st, hwf, hinv => by
    have hwf' : ((!m.isEmpty) && gaplessFrom 0 m) = true ∧ wellFormedStream ms = true := by
      simp only [wellFormedStream, List.all_cons, Bool.and_eq_true] at hwf ⊢
      exact hwf
    have hm : m ≠ [] ∧ gaplessFrom 0 m = true := by
      have := hwf'.1
      simp only [Bool.and_eq_true, Bool.not_eq_true', List.isEmpty_eq_false] at this
      exact ⟨this.1, this.2⟩
    exact foldMessages_inv ms (processMessage st m) hwf'.2
      (processMessage_inv st m hm.1 hm.2 hinv)

/-- All characters of a span text except possibly the first one are
non-whitespace. -/
def tailNonWhitespace (s : String) : Bool :=
  s.data.tail.all fun c => !c.isWhitespace

theorem all_map_fst : ∀ w : List (Char × Nat),
    ((w.map Prod.fst).all fun c => !c.isWhitespace) =
      (w.all fun p => !p.1.isWhitespace)
  | [] => rfl
  | p :: w => by simp only [List.map_cons, List.all_cons, all_map_fst w]

theorem wordText_tailNonWS (w : List (Char × Nat))
    (h : w.tail.all (fun p => !p.1.isWhitespace) = true) :
    tailNonWhitespace (wordText w) = true := by
  cases w with
  | nil => rfl
  | cons p w' =>
    show (w'.map Prod.fst).all (fun c => !c.isWhitespace) = true
    rw [all_map_fst]
    exact h

theorem processChar_wsInv (st : BuildState) (t : CharTiming)
    (hwi : st.word.tail.all (fun p => !p.1.isWhitespace) = true)
    (hoi : st.out.all (fun sp => tailNonWhitespace sp.text) = true) :
    (processChar st t).word.tail.all (fun p => !p.1.isWhitespace) = true ∧
    (processChar st t).out.all (fun sp => tailNonWhitespace sp.text) = true := by
  by_cases hc : st.word ≠ [] ∧ t.c.isWhitespace
  · constructor
    · rw [processChar_word, if_pos hc]
      rfl
    · rw [processChar_out, if_pos hc, List.all_append]
      refine (Bool.and_eq_true _ _).mpr ⟨hoi, ?_⟩
      simp only [List.all_cons, List.all_nil, Bool.and_true]
      exact wordText_tailNonWS st.word hwi
  · constructor
    · rw [processChar_word, if_neg hc]
      cases hw : st.word with
      | nil => rfl
      | cons p w' =>
        rw [hw] at hwi hc
        have htc : ¬t.c.isWhitespace = true := by
          intro hws
          exact hc ⟨by simp, hws⟩
        show (w' ++ [(t.c, t.a + st.start)]).all (fun p => !p.1.isWhitespace) = true
        rw [List.all_append]
        refine (Bool.and_eq_true _ _).mpr ⟨hwi, ?_⟩
        simp only [List.all_cons, List.all_nil, Bool.and_true, Bool.not_eq_true']
        exact Bool.not_eq_true _ ▸ htc
    · rw [processChar_out, if_neg hc]
      exact hoi

theorem foldChars_wsInv : ∀ (msg : List CharTiming) (st : BuildState),
    st.word.tail.all (fun p => !p.1.isWhitespace) = true →
    st.out.all (fun sp => tailNonWhitespace sp.text) = true →
    (msg.foldl processChar st).word.tail.all (fun p => !p.1.isWhitespace) = true ∧
    (msg.foldl processChar st).out.all (fun sp => tailNonWhitespace sp.text) = true
  | [], _, hwi, hoi => ⟨hwi, hoi⟩
  | t :: ts, st, hwi, hoi => by
    have h := processChar_wsInv st t hwi hoi
    exact foldChars_wsInv ts (processChar st t) h.1 h.2

theorem processMessage_wsInv (st : BuildState) (msg : List CharTiming)
    (hwi : st.word.tail.all (fun p => !p.1.isWhitespace) = true)
    (hoi : st.out.all (fun sp => tailNonWhitespace sp.text) = true) :
    (processMessage st msg).out.all (fun sp => tailNonWhitespace sp.text) = true := by
  have h := foldChars_wsInv msg st hwi hoi
  rw [processMessage_out]
  split
  · rw [List.all_append]
    refine (Bool.and_eq_true _ _).mpr ⟨h.2, ?_⟩
    simp only [List.all_cons, List.all_nil, Bool.and_true]
    exact wordText_tailNonWS _ h.1
  · exact h.2

theorem foldMessages_wsInv : ∀ (msgs : List (List CharTiming)) (st : BuildState),
    st.word = [] → st.out.all (fun sp => tailNonWhitespace sp.text) = true →
    (msgs.foldl processMessage st).out.all (fun sp => tailNonWhitespace sp.text) = true
  | [], _, _, hoi => hoi
  | m :: ms, st, hw, hoi => by
    have h1 : st.word.tail.all (fun p => !p.1.isWhitespace) = true := by rw [hw]; rfl
    exact foldMessages_wsInv ms (processMessage st m) (processMessage_word st m)
      (processMessage_wsInv st m h1 hoi)

/-- A non-empty buffer pending at the end of an alignment message is
flushed as exactly one more span built from the buffer. -/
theorem processMessage_flush (st : BuildState) (msg : List CharTiming)
    (h : (msg.foldl processChar st).word ≠ []) :
    (processMessage st msg).out = (msg.foldl processChar st).out ++
      [⟨wordText (msg.foldl processChar st).word,
        wordStart (msg.foldl processChar st).word,
        max (msg.foldl processChar st).len (MIN_TIME * 1000)⟩] := by
  rw [processMessage_out, if_pos h]

/-- A character consumed while the buffer is empty becomes the first
buffered character, recorded with its absolute start time `a + start`. -/
theorem processChar_firstChar (st : BuildState) (t : CharTiming) (hw : st.word = []) :
    (processChar st t).word = [(t.c, t.a + st.start)] := by
  rw [processChar_word, if_neg (by rw [hw]; simp), hw, List.nil_append]

/-! ### Lemmas about the alignment corrector -/

theorem empty_append_str (s : String) : "" ++ s = s := by
  cases s
  rfl

/-- The fuel of the scan loop is irrelevant as long as it is at least the
length of the remaining sequence and the rule consumes at least one span
per match. -/
theorem replaceSublistGo_fuel (search : List String) (replacement : String)
    (offset : Nat) (isRegex : Bool) (rm : String → String → Bool)
    (h1 : 1 ≤ offset + search.length) :
    ∀ (n fuel : Nat) (rest : List Span), rest.length ≤ fuel → fuel ≤ n →
    replaceSublistGo search replacement offset isRegex rm fuel rest =
      replaceSublistGo search replacement offset isRegex rm rest.length rest := by
  intro n
  induction n with
  | zero =>
    intro fuel rest hlen hfn
    have hf : fuel = 0 := Nat.le_zero.mp hfn
    subst hf
    have : rest = [] := List.length_eq_zero.mp (Nat.le_zero.mp hlen)
    subst this
    rfl
  | succ n ih =>
    intro fuel rest hlen hfn
    cases rest with
    | nil => cases fuel <;> rfl
    | cons x xs =>
      cases fuel with
      | zero => simp at hlen
      | succ f =>
        have hxl : (x :: xs).length = xs.length + 1 := List.length_cons x xs
        show (if _ then _ else _) = (if _ then _ else _)
        by_cases hc : offset + search.length ≤ (x :: xs).length ∧
            windowMatches isRegex rm search (((x :: xs).drop offset).take search.length)
        · rw [if_pos hc, if_pos hc]
          have hdrop : ((x :: xs).drop (offset + search.length)).length ≤ xs.length := by
            rw [List.length_drop]
            omega
          have e1 := ih f ((x :: xs).drop (offset + search.length))
            (by omega) (by omega)
          have e2 := ih xs.length ((x :: xs).drop (offset + search.length))
            (by omega) (by omega)
          rw [e1, ← e2]
        · rw [if_neg hc, if_neg hc]
          have e1 := ih f xs (by omega) (by omega)
          rw [e1]

theorem replace_sublist_nil (search : List String) (replacement : String)
    (offset : Nat) (isRegex : Bool) (rm : String → String → Bool) :
    replace_sublist [] search replacement offset isRegex rm = [] := rfl

/-- A step of the scan at a matching position: the whole window is
replaced by exactly one span and the scan resumes immediately after the
window. -/
theorem replace_sublist_matchStep (search : List String) (replacement : String)
    (offset : Nat) (isRegex : Bool) (rm : String → String → Bool)
    (x : Span) (xs : List Span) (h1 : 1 ≤ offset + search.length)
    (hlen : offset + search.length ≤ (x :: xs).length)
    (hm : windowMatches isRegex rm search
      (((x :: xs).drop offset).take search.length) = true) :
    replace_sublist (x :: xs) search replacement offset isRegex rm =
      replacementSpan (x :: xs) search replacement offset ::
        replace_sublist ((x :: xs).drop (offset + search.length))
          search replacement offset isRegex rm := by
  show replaceSublistGo search replacement offset isRegex rm (xs.length + 1) (x :: xs) = _
  show (if _ then _ else _) = _
  rw [if_pos ⟨hlen, hm⟩]
  congr 1
  exact replaceSublistGo_fuel search replacement offset isRegex rm h1 xs.length
    xs.length ((x :: xs).drop (offset + search.length))
    (by rw [List.length_drop]; simp only [List.length_cons]; omega) (Nat.le_refl _)

/-- A step of the scan at a non-matching position: the first span is kept
and the scan advances by one. -/
theorem replace_sublist_noMatchStep (search : List String) (replacement : String)
    (offset : Nat) (isRegex : Bool) (rm : String → String → Bool)
    (x : Span) (xs : List Span) (_h1 : 1 ≤ offset + search.length)
    (hnc : ¬(offset + search.length ≤ (x :: xs).length ∧
      windowMatches isRegex rm search (((x :: xs).drop offset).take search.length))) :
    replace_sublist (x :: xs) search replacement offset isRegex rm =
      x :: replace_sublist xs search replacement offset isRegex rm := by
  show replaceSublistGo search replacement offset isRegex rm (xs.length + 1) (x :: xs) = _
  show (if _ then _ else _) = _
  rw [if_neg hnc]
  rfl

/-- With no leading context, the replacement span's text is exactly the
replacement string. -/
theorem replacementSpan_text_zero (rest : List Span) (search : List String)
    (replacement : String) :
    (replacementSpan rest search replacement 0).text = replacement := by
  simp only [replacementSpan]
  rw [if_neg (by omega)]
  exact empty_append_str replacement

/-- The corrected list is never longer than the input. -/
theorem replace_sublist_length_le (search : List String) (replacement : String)
    (isRegex : Bool) (rm : String → String → Bool) (hs : search ≠ []) :
    ∀ (n : Nat) (s : List Span), s.length ≤ n →
    (replace_sublist s search replacement 0 isRegex rm).length ≤ s.length := by
  have h1 : 1 ≤ 0 + search.length := by
    cases search with
    | nil => exact absurd rfl hs
    | cons a l => simp
  intro n
  induction n with
  | zero =>
    intro s hlen
    have : s = [] := List.length_eq_zero.mp (Nat.le_zero.mp hlen)
    subst this
    simp [replace_sublist_nil]
  | succ n ih =>
    intro s hlen
    cases s with
    | nil => simp [replace_sublist_nil]
    | cons x xs =>
      by_cases hc : 0 + search.length ≤ (x :: xs).length ∧
          windowMatches isRegex rm search (((x :: xs).drop 0).take search.length)
      · rw [replace_sublist_matchStep search replacement 0 isRegex rm x xs h1 hc.1 hc.2]
        have hdl : ((x :: xs).drop (0 + search.length)).length ≤ n := by
          rw [List.length_drop]
          simp only [List.length_cons] at hlen ⊢
          omega
        have := ih ((x :: xs).drop (0 + search.length)) hdl
        rw [List.length_drop] at this
        simp only [List.length_cons] at *
        omega
      · rw [replace_sublist_noMatchStep search replacement 0 isRegex rm x xs h1 hc]
        have := ih xs (by simp only [List.length_cons] at hlen; omega)
        simp only [List.length_cons]
        omega

/-- Any prefix of the corrected list is either the same prefix of the
input or contains a span whose text is the replacement. -/
theorem replace_sublist_take (search : List String) (replacement : String)
    (isRegex : Bool) (rm : String → String → Bool) (hs : search ≠ []) :
    ∀ (n : Nat) (s : List Span), s.length ≤ n → ∀ (j : Nat),
    (replace_sublist s search replacement 0 isRegex rm).take j = s.take j ∨
      ∃ sp ∈ (replace_sublist s search replacement 0 isRegex rm).take j,
        sp.text = replacement := by
  have h1 : 1 ≤ 0 + search.length := by
    cases search with
    | nil => exact absurd rfl hs
    | cons a l => simp
  intro n
  induction n with
  | zero =>
    intro s hlen j
    have : s = [] := List.length_eq_zero.mp (Nat.le_zero.mp hlen)
    subst this
    left
    rfl
  | succ n ih =>
    intro s hlen j
    cases s with
    | nil => left; rfl
    | cons x xs =>
      by_cases hc : 0 + search.length ≤ (x :: xs).length ∧
          windowMatches isRegex rm search (((x :: xs).drop 0).take search.length)
      · rw [replace_sublist_matchStep search replacement 0 isRegex rm x xs h1 hc.1 hc.2]
        cases j with
        | zero => left; rfl
        | succ j' =>
          right
          exact ⟨replacementSpan (x :: xs) search replacement 0,
            by simp [List.take_succ_cons],
            replacementSpan_text_zero (x :: xs) search replacement⟩
      · rw [replace_sublist_noMatchStep search replacement 0 isRegex rm x xs h1 hc]
        cases j with
        | zero => left; rfl
        | succ j' =>
          rcases ih xs (by simp only [List.length_cons] at hlen; omega) j' with
            heq | ⟨sp, hsp, htext⟩
          · left
            simp only [List.take_succ_cons, heq]
          · right
            exact ⟨sp, List.mem_cons_of_mem _ (by simpa [List.take_succ_cons] using hsp),
              htext⟩

/-- A window of the right length containing a span whose text no pattern
token matches cannot match the pattern. -/
theorem windowMatches_false_of_mem (isRegex : Bool) (rm : String → String → Bool)
    (replacement : String) :
    ∀ (window : List Span) (search : List String),
    window.length = search.length →
    (∀ tok ∈ search, tokenMatches isRegex rm tok replacement = false) →
    ∀ sp ∈ window, sp.text = replacement →
    windowMatches isRegex rm search window = false := by
  intro window
  induction window with
  | nil =>
    intro search _ _ sp hmem _
    exact absurd hmem (List.not_mem_nil sp)
  | cons d ws ihw =>
    intro search hlen hno sp hmem htext
    cases search with
    | nil => simp at hlen
    | cons s ss =>
      have hunfold : windowMatches isRegex rm (s :: ss) (d :: ws) =
          (tokenMatches isRegex rm s d.text && windowMatches isRegex rm ss ws) := rfl
      rw [hunfold]
      rcases List.mem_cons.mp hmem with heq | hmem'
      · rw [← heq, htext, hno s (List.mem_cons_self s ss), Bool.false_and]
      · rw [ihw ss (by simpa using hlen) (fun tok ht => hno tok (List.mem_cons_of_mem _ ht))
          sp hmem' htext, Bool.and_false]

/-- `take` of a cons for a positive count, phrased with a predecessor. -/
theorem take_pred_cons {α : Type} (k : Nat) (hk : 1 ≤ k) (a : α) (l : List α) :
    (a :: l).take k = a :: l.take (k - 1) := by
  cases k with
  | zero => omega
  | succ j =>
    rw [List.take_succ_cons]
    rfl

/-- With no leading context and a replacement text that no pattern token
matches, one correction pass is a fixed point of the corrector. -/
theorem replace_sublist_idem_aux (search : List String) (replacement : String)
    (isRegex : Bool) (rm : String → String → Bool) (hs : search ≠ [])
    (hno : ∀ tok ∈ search, tokenMatches isRegex rm tok replacement = false) :
    ∀ (n : Nat) (s : List Span), s.length ≤ n →
    replace_sublist (replace_sublist s search replacement 0 isRegex rm)
        search replacement 0 isRegex rm =
      replace_sublist s search replacement 0 isRegex rm := by
  have h1 : 1 ≤ 0 + search.length := by
    cases search with
    | nil => exact absurd rfl hs
    | cons a l => simp
  intro n
  induction n with
  | zero =>
    intro s hlen
    have : s = [] := List.length_eq_zero.mp (Nat.le_zero.mp hlen)
    subst this
    rfl
  | succ n ih =>
    intro s hlen
    cases s with
    | nil => rfl
    | cons x xs =>
      have hxl : (x :: xs).length = xs.length + 1 := List.length_cons x xs
      by_cases hc : 0 + search.length ≤ (x :: xs).length ∧
          windowMatches isRegex rm search (((x :: xs).drop 0).take search.length)
      · rw [replace_sublist_matchStep search replacement 0 isRegex rm x xs h1 hc.1 hc.2]
        -- the merged span heads the output; its text is the replacement,
        -- so the window at the head of the output cannot match
        have hnc : ¬(0 + search.length ≤
            (replacementSpan (x :: xs) search replacement 0 ::
              replace_sublist ((x :: xs).drop (0 + search.length))
                search replacement 0 isRegex rm).length ∧
            windowMatches isRegex rm search
              (((replacementSpan (x :: xs) search replacement 0 ::
                replace_sublist ((x :: xs).drop (0 + search.length))
                  search replacement 0 isRegex rm).drop 0).take search.length)) := by
          rintro ⟨hl, hm2⟩
          have hll : (replacementSpan (x :: xs) search replacement 0 ::
              replace_sublist ((x :: xs).drop (0 + search.length))
                search replacement 0 isRegex rm).length =
              (replace_sublist ((x :: xs).drop (0 + search.length))
                search replacement 0 isRegex rm).length + 1 := List.length_cons _ _
          have hwin := take_pred_cons search.length (by omega)
            (replacementSpan (x :: xs) search replacement 0)
            (replace_sublist ((x :: xs).drop (0 + search.length))
              search replacement 0 isRegex rm)
          rw [List.drop_zero] at hm2
          have hmem : replacementSpan (x :: xs) search replacement 0 ∈
              ((replacementSpan (x :: xs) search replacement 0 ::
                replace_sublist ((x :: xs).drop (0 + search.length))
                  search replacement 0 isRegex rm).take search.length) := by
            rw [hwin]
            exact List.mem_cons_self _ _
          have hwl : (((replacementSpan (x :: xs) search replacement 0 ::
              replace_sublist ((x :: xs).drop (0 + search.length))
                search replacement 0 isRegex rm).take search.length)).length =
              search.length := by
            rw [List.length_take]
            omega
          have hfalse := windowMatches_false_of_mem isRegex rm replacement
            _ search hwl hno _ hmem
            (replacementSpan_text_zero (x :: xs) search replacement)
          rw [hfalse] at hm2
          exact Bool.false_ne_true hm2
        rw [replace_sublist_noMatchStep search replacement 0 isRegex rm _ _ h1 hnc]
        congr 1
        refine ih ((x :: xs).drop (0 + search.length)) ?_
        rw [List.length_drop]
        omega
      · rw [replace_sublist_noMatchStep search replacement 0 isRegex rm x xs h1 hc]
        have hxs : xs.length ≤ n := by omega
        have hnc2 : ¬(0 + search.length ≤
            (x :: replace_sublist xs search replacement 0 isRegex rm).length ∧
            windowMatches isRegex rm search
              (((x :: replace_sublist xs search replacement 0 isRegex rm).drop 0).take
                search.length)) := by
          rintro ⟨hl, hm2⟩
          have hll : (x :: replace_sublist xs search replacement 0 isRegex rm).length =
              (replace_sublist xs search replacement 0 isRegex rm).length + 1 :=
            List.length_cons _ _
          rw [List.drop_zero] at hm2
          have hwin := take_pred_cons search.length (by omega) x
            (replace_sublist xs search replacement 0 isRegex rm)
          have hwl : ((x :: replace_sublist xs search replacement 0 isRegex rm).take
              search.length).length = search.length := by
            rw [List.length_take]
            omega
          rcases replace_sublist_take search replacement isRegex rm hs n xs hxs
              (search.length - 1) with heq | ⟨sp, hsp, htext⟩
          · -- the corrected tail agrees with the original on the window,
            -- so the original window would have matched already
            have hwin2 : (x :: replace_sublist xs search replacement 0 isRegex rm).take
                search.length = ((x :: xs).drop 0).take search.length := by
              rw [List.drop_zero, hwin, heq, ← take_pred_cons search.length (by omega) x xs]
            have hlen2 : 0 + search.length ≤ (x :: xs).length := by
              have hle := replace_sublist_length_le search replacement isRegex rm hs n xs hxs
              omega
            rw [hwin2] at hm2
            exact hc ⟨hlen2, hm2⟩
          · have hmem : sp ∈ (x :: replace_sublist xs search replacement 0 isRegex rm).take
                search.length := by
              rw [hwin]
              exact List.mem_cons_of_mem _ hsp
            have hfalse := windowMatches_false_of_mem isRegex rm replacement
              _ search hwl hno sp hmem htext
            rw [hfalse] at hm2
            exact Bool.false_ne_true hm2
        rw [replace_sublist_noMatchStep search replacement 0 isRegex rm x _ h1 hnc2]
        congr 1
        exact ih xs hxs

/-! ### Lemmas about the speech client retry loop and the worker -/

/-- As long as no attempt fails with an unrecognized error, the retry loop
never lets an exception propagate: quota, busy and closed-connection
failures are all retried. -/
theorem retryLoop_no_raise : ∀ (attempts : List TtsAttempt) (hours : Nat),
    TtsAttempt.otherError ∉ attempts →
    (generateVoiceRetryLoop hours attempts).2 ≠ TtsOutcome.raised
  | [], _, _ => by simp [generateVoiceRetryLoop]
  | .ok r :: _, _, _ => by simp [generateVoiceRetryLoop]
  | .quotaExceeded :: rest, hours, h => by
    simp only [generateVoiceRetryLoop]
    exact retryLoop_no_raise rest (min 24 (hours + 1))
      (fun hm => h (List.mem_cons_of_mem _ hm))
  | .systemBusy :: rest, hours, h => by
    simp only [generateVoiceRetryLoop]
    exact retryLoop_no_raise rest hours (fun hm => h (List.mem_cons_of_mem _ hm))
  | .connectionClosed :: rest, hours, h => by
    simp only [generateVoiceRetryLoop]
    exact retryLoop_no_raise rest hours (fun hm => h (List.mem_cons_of_mem _ hm))
  | .otherError :: _, _, h => absurd (List.mem_cons_self _ _) h

/-- The quota backoff sequence: starting from a backoff of `hours` (between
1 and 24), the `k`-th consecutive quota failure is followed by a sleep of
`min 24 (hours + k)` hours. -/
theorem retryLoop_quota_sleeps : ∀ (n hours : Nat), 1 ≤ hours → hours ≤ 24 →
    (generateVoiceRetryLoop hours
      (List.replicate n TtsAttempt.quotaExceeded ++ [TtsAttempt.ok 0])).1 =
      (List.range n).map fun k => min 24 (hours + k) * 60 * 60
  | 0, hours, _, _ => by simp [generateVoiceRetryLoop]
  | n + 1, hours, h1, h2 => by
    have ih := retryLoop_quota_sleeps n (min 24 (hours + 1)) (by omega) (by omega)
    simp only [List.replicate_succ, List.cons_append, generateVoiceRetryLoop]
    show hours * 60 * 60 ::
        (generateVoiceRetryLoop (min 24 (hours + 1))
          (List.replicate n TtsAttempt.quotaExceeded ++ [TtsAttempt.ok 0])).1 =
      List.map (fun k => min 24 (hours + k) * 60 * 60) (List.range (n + 1))
    rw [ih, List.range_succ_eq_map, List.map_cons, List.map_map]
    congr 1
    · have h0 : min 24 (hours + 0) = hours := by omega
      rw [h0]
    · refine List.map_congr_left ?_
      intro k _
      show min 24 (min 24 (hours + 1) + k) * 60 * 60 = min 24 (hours + (k + 1)) * 60 * 60
      have : min 24 (min 24 (hours + 1) + k) = min 24 (hours + (k + 1)) := by omega
      rw [this]

/-! ### Lemmas about the catalog -/

theorem find_map_replace : ∀ (catalog : List (String × Manuscript)) (m : Manuscript),
    (catalog.find? (·.1 == m.id)).isSome = true →
    List.find? (·.1 == m.id) (catalog.map fun p => if p.1 == m.id then (m.id, m) else p) =
      some (m.id, m)
  | [], m, h => by simp [List.find?] at h
  | p :: c, m, h => by
    by_cases hp : (p.1 == m.id) = true
    · rw [List.map_cons, if_pos hp]
      simp [List.find?]
    · rw [List.map_cons, if_neg hp]
      have h' : (c.find? (·.1 == m.id)).isSome = true := by
        rw [List.find?_cons_of_neg] at h
        · exact h
        · simpa using hp
      rw [List.find?_cons_of_neg _ (by simpa using hp)]
      exact find_map_replace c m h'

theorem find_append_of_none : ∀ (catalog : List (String × Manuscript)) (m : Manuscript),
    catalog.find? (·.1 == m.id) = none →
    List.find? (·.1 == m.id) (catalog ++ [(m.id, m)]) = some (m.id, m)
  | [], m, _ => by simp [List.find?]
  | p :: c, m, h => by
    have hp : (p.1 == m.id) = false := by
      by_contra hne
      rw [List.find?_cons_of_pos _ (by simpa using hne)] at h
      exact Option.some_ne_none _ h
    rw [List.find?_cons_of_neg _ (by simp [hp])] at h
    rw [List.cons_append, List.find?_cons_of_neg _ (by simp [hp])]
    exact find_append_of_none c m h

/-- The upsert `insert_or_replace` makes the manuscript retrievable under
its identifier. -/
theorem find_insert_or_replace (catalog : List (String × Manuscript)) (m : Manuscript) :
    List.find? (·.1 == m.id) (insert_or_replace catalog m) = some (m.id, m) := by
  unfold insert_or_replace
  by_cases h : (catalog.find? (·.1 == m.id)).isSome = true
  · rw [if_pos h]
    exact find_map_replace catalog m h
  · rw [if_neg h]
    exact find_append_of_none catalog m (Option.not_isSome_iff_eq_none.mp (by simpa using h))

/-! ### Example inputs for the claims -/

/-- The spec's example spans for the `POST_REPLACE` rule, with concrete
timings (1000 ms per span). -/
def yeExampleSpans : List Span :=
  [⟨"375", 0, 1000⟩, ⟨"Year", 1000, 1000⟩, ⟨"of", 2000, 1000⟩,
   ⟨"the", 3000, 1000⟩, ⟨"Empire,", 4000, 1000⟩]

/-- A gapless stream of two short words whose raw durations fall below the
`MIN_TIME` clamp. -/
def clampStream : List (List CharTiming) :=
  [[⟨'a', 0, 10⟩, ⟨' ', 10, 10⟩, ⟨'b', 20, 10⟩, ⟨' ', 30, 10⟩]]

/-- A gapless stream that starts with a whitespace character. -/
def leadingSpaceStream : List (List CharTiming) :=
  [[⟨' ', 0, 100⟩, ⟨'a', 100, 100⟩, ⟨' ', 200, 100⟩]]

/-- A stream for the C2 and C3 witnesses: one word and its terminating
space. -/
def oneWordStream : List (List CharTiming) :=
  [[⟨'h', 0, 2000⟩, ⟨' ', 2000, 500⟩]]

/-- A short stream whose single word falls below the clamp. -/
def shortWordStream : List (List CharTiming) :=
  [[⟨'h', 0, 5⟩, ⟨' ', 5, 5⟩]]

/-- Spans in which a second occurrence of the `POST_REPLACE` phrase starts
inside the first match's window, so the first pass skips over it. -/
def hiddenMatchSpans : List Span :=
  [⟨"x", 0, 1000⟩, ⟨"Year", 1000, 1000⟩, ⟨"of", 2000, 1000⟩, ⟨"the", 3000, 1000⟩,
   ⟨"Empire.", 4000, 1000⟩, ⟨"Year", 5000, 1000⟩, ⟨"of", 6000, 1000⟩,
   ⟨"the", 7000, 1000⟩, ⟨"Empire,", 8000, 1000⟩]

/-! ### The claims -/

/-- C1: when the spans at positions `[i+offset, i+offset+len(pattern))`
match a rule's pattern tokens, the whole window `[i, i+offset+len(pattern))`
is replaced by exactly one span whose text is the joined leading context
plus a space (when `offset > 0`) followed by the replacement, whose start
is the window's first span's start, and whose duration is
`max(sum of the replaced spans' durations, 1000)`; scanning resumes
immediately after the window.  In particular the `POST_REPLACE` rule
applied to the five spans `"375" "Year" "of" "the" "Empire,"` yields the
single span `"375 YE"` with the first span's start and the summed
duration. -/
theorem c1_window_replacement :
    (∀ (search : List String) (replacement : String) (offset : Nat) (isRegex : Bool)
      (rm : String → String → Bool) (x : Span) (xs : List Span),
      1 ≤ offset + search.length →
      offset + search.length ≤ (x :: xs).length →
      windowMatches isRegex rm search (((x :: xs).drop offset).take search.length) = true →
      replace_sublist (x :: xs) search replacement offset isRegex rm =
        ⟨(if offset ≠ 0 then
            String.intercalate " " (((x :: xs).take offset).map Span.text) ++ " "
          else "") ++ replacement,
          x.start,
          max ((((x :: xs).take (offset + search.length)).map Span.length).sum)
            (MIN_TIME * 1000)⟩ ::
          replace_sublist ((x :: xs).drop (offset + search.length))
            search replacement offset isRegex rm) ∧
    correctAlignment yeExampleSpans = [⟨"375 YE", 0, 5000⟩] := by
  constructor
  · intro search replacement offset isRegex rm x xs h1 hlen hm
    rw [replace_sublist_matchStep search replacement offset isRegex rm x xs h1 hlen hm]
    rfl
  · decide

/-- Witness for C1: the step characterization applied to the spec's own
example, with every hypothesis checked by computation. -/
theorem c1_witness :
    (1 ≤ 1 + (["Year", "of", "the", empirePattern] : List String).length) ∧
    windowMatches true postReplaceRegexMatch ["Year", "of", "the", empirePattern]
      ((yeExampleSpans.drop 1).take 4) = true ∧
    replace_sublist yeExampleSpans ["Year", "of", "the", empirePattern] "YE" 1 true
        postReplaceRegexMatch =
      ⟨(if (1 : Nat) ≠ 0 then
          String.intercalate " " ((yeExampleSpans.take 1).map Span.text) ++ " "
        else "") ++ "YE",
        (0 : Nat),
        max (((yeExampleSpans.take (1 + (["Year", "of", "the",
          empirePattern] : List String).length)).map Span.length).sum) (MIN_TIME * 1000)⟩ ::
        replace_sublist (yeExampleSpans.drop (1 + (["Year", "of", "the",
          empirePattern] : List String).length)) ["Year", "of", "the", empirePattern]
          "YE" 1 true postReplaceRegexMatch := by
  refine ⟨by decide, by decide, ?_⟩
  exact c1_window_replacement.1 ["Year", "of", "the", empirePattern] "YE" 1 true
    postReplaceRegexMatch ⟨"375", 0, 1000⟩
    [⟨"Year", 1000, 1000⟩, ⟨"of", 2000, 1000⟩, ⟨"the", 3000, 1000⟩, ⟨"Empire,", 4000, 1000⟩]
    (by decide) (by decide) (by decide)

/-- C2 counterexample: on a well-formed (gapless, zero-based) stream of
two 20 ms words, the builder emits spans clamped to 1000 ms each, which
overlap and whose durations sum to 2000 ms although the audio is only
40 ms long — refuting non-overlap and the duration-sum equality. -/
theorem c2_counterexample :
    wellFormedStream clampStream = true ∧
    startsSorted (buildAlignment clampStream) = true ∧
    nonOverlapping (buildAlignment clampStream) = false ∧
    durationSum (buildAlignment clampStream) ≠ streamDuration clampStream := by decide

/-- C2 (amended): for every well-formed char-timing stream the emitted
spans are time-ordered (non-decreasing starts), and the sum of the
emitted durations is at least the total audio duration; the `MIN_TIME`
clamp can inflate durations, so non-overlap and the exact sum do not
hold. -/
theorem c2_alignment_builder :
    (∀ msgs : List (List CharTiming), wellFormedStream msgs = true →
      startsSorted (buildAlignment msgs) = true) ∧
    (∀ msgs : List (List CharTiming),
      streamDuration msgs ≤ durationSum (buildAlignment msgs)) := by
  constructor
  · intro msgs h
    have hinv := foldMessages_inv msgs ⟨0, [], 0, []⟩ h
      ⟨rfl, rfl, rfl, fun sp hsp => absurd hsp (List.not_mem_nil sp)⟩
    exact hinv.2.2.1
  · intro msgs
    have h := foldMessages_durationSum msgs ⟨0, [], 0, []⟩ (fun _ => rfl)
    simpa [buildAlignment, durationSum] using h

/-- Witness for C2: the amended theorem applied to a concrete well-formed
stream. -/
theorem c2_witness :
    wellFormedStream oneWordStream = true ∧
    startsSorted (buildAlignment oneWordStream) = true :=
  ⟨by decide, c2_alignment_builder.1 oneWordStream (by decide)⟩

/-- C3: every span emitted by the alignment builder has duration at least
`MIN_TIME * 1000 = 1000` ms (for every stream, hence in particular for
every non-empty one). -/
theorem c3_min_span_duration : ∀ (msgs : List (List CharTiming)),
    ∀ sp ∈ buildAlignment msgs, MIN_TIME * 1000 ≤ sp.length :=
  fun msgs =>
    foldMessages_out_min msgs ⟨0, [], 0, []⟩
      (fun sp hsp => absurd hsp (List.not_mem_nil sp))

/-- Witness for C3: a 10 ms word is clamped to a 1000 ms span. -/
theorem c3_witness : MIN_TIME * 1000 ≤ (Span.mk "h" 0 1000).length :=
  c3_min_span_duration shortWordStream ⟨"h", 0, 1000⟩ (by decide)

/-- C4 counterexample: a well-formed stream beginning with a whitespace
character produces the span `" a"`, whose text contains whitespace —
refuting the claim that whitespace never appears in an emitted span's
text. -/
theorem c4_counterexample :
    wellFormedStream leadingSpaceStream = true ∧
    buildAlignment leadingSpaceStream = [⟨" a", 0, 1000⟩] ∧
    ((buildAlignment leadingSpaceStream).any fun sp =>
      sp.text.data.any Char.isWhitespace) = true := by decide

/-- C4 (amended): every emitted span's text consists of non-whitespace
characters optionally preceded by a single whitespace character absorbed
while the buffer was empty; a non-empty buffer pending at the end of an
alignment message (in particular at stream end) is flushed as exactly one
final span; and the span start is the absolute start time `a + start` of
the first character accumulated into the buffer. -/
theorem c4_span_text :
    (∀ msgs : List (List CharTiming),
      (buildAlignment msgs).all (fun sp => tailNonWhitespace sp.text) = true) ∧
    (∀ (st : BuildState) (msg : List CharTiming),
      (msg.foldl processChar st).word ≠ [] →
      (processMessage st msg).out = (msg.foldl processChar st).out ++
        [⟨wordText (msg.foldl processChar st).word,
          wordStart (msg.foldl processChar st).word,
          max (msg.foldl processChar st).len (MIN_TIME * 1000)⟩]) ∧
    (∀ (st : BuildState) (t : CharTiming), st.word = [] →
      (processChar st t).word = [(t.c, t.a + st.start)]) := by
  refine ⟨?_, processMessage_flush, processChar_firstChar⟩
  intro msgs
  exact foldMessages_wsInv msgs ⟨0, [], 0, []⟩ rfl rfl

/-- Witness for C4: the flush and first-character parts applied to a
concrete state and message. -/
theorem c4_witness :
    ((([⟨'h', 0, 5⟩] : List CharTiming).foldl processChar ⟨0, [], 0, []⟩).word ≠ []) ∧
    (processMessage ⟨0, [], 0, []⟩ [⟨'h', 0, 5⟩]).out =
      (([⟨'h', 0, 5⟩] : List CharTiming).foldl processChar ⟨0, [], 0, []⟩).out ++
      [⟨wordText (([⟨'h', 0, 5⟩] : List CharTiming).foldl processChar ⟨0, [], 0, []⟩).word,
        wordStart (([⟨'h', 0, 5⟩] : List CharTiming).foldl processChar ⟨0, [], 0, []⟩).word,
        max (([⟨'h', 0, 5⟩] : List CharTiming).foldl processChar ⟨0, [], 0, []⟩).len
          (MIN_TIME * 1000)⟩] ∧
    (processChar ⟨0, [], 0, []⟩ ⟨'h', 0, 5⟩).word = [('h', 0 + 0)] :=
  ⟨by decide, c4_span_text.2.1 ⟨0, [], 0, []⟩ [⟨'h', 0, 5⟩] (by decide),
    c4_span_text.2.2 ⟨0, [], 0, []⟩ ⟨'h', 0, 5⟩ rfl⟩

/-- C5 counterexample: an unrecognized provider error
(`ElevenLabsError`) makes the synthesis retry loop raise instead of
retrying or waiting, and the worker loop's `except` arm catches only
`httpx.ConnectError`, so such an exception unwinds past the worker
loop. -/
theorem c5_counterexample :
    (generateVoiceRetryLoop 1 [TtsAttempt.otherError]).2 = TtsOutcome.raised ∧
    workerCatches WorkerException.elevenLabsError = false := by decide

/-- C5 (amended): quota-exhaustion, system-busy and closed-connection
failures are all retried inside the synthesis loop (no exception is
raised as long as no unrecognized provider error occurs), and the worker
loop catches `httpx.ConnectError` but not `ElevenLabsError`. -/
theorem c5_worker_error_handling :
    (∀ (hours : Nat) (attempts : List TtsAttempt),
      TtsAttempt.otherError ∉ attempts →
      (generateVoiceRetryLoop hours attempts).2 ≠ TtsOutcome.raised) ∧
    workerCatches WorkerException.connectError = true ∧
    workerCatches WorkerException.elevenLabsError = false :=
  ⟨fun hours attempts h => retryLoop_no_raise attempts hours h, rfl, rfl⟩

/-- Witness for C5: a quota failure followed by success never raises. -/
theorem c5_witness :
    TtsAttempt.otherError ∉ [TtsAttempt.quotaExceeded, TtsAttempt.ok 7] ∧
    (generateVoiceRetryLoop 1 [TtsAttempt.quotaExceeded, TtsAttempt.ok 7]).2 ≠
      TtsOutcome.raised :=
  ⟨by decide, c5_worker_error_handling.1 1 [TtsAttempt.quotaExceeded, TtsAttempt.ok 7]
    (by decide)⟩

/-- C6 counterexample: after three consecutive quota failures the sleeps
are 1 h, 2 h and 3 h.  The growth is linear: the second delay is twice
the first, but the third (10800 s, far below the 24 h cap) is not twice
the second, so the delays do not grow exponentially. -/
theorem c6_counterexample :
    (generateVoiceRetryLoop 1 [TtsAttempt.quotaExceeded, TtsAttempt.quotaExceeded,
      TtsAttempt.quotaExceeded, TtsAttempt.ok 0]).1 = [3600, 7200, 10800] ∧
    7200 = 2 * 3600 ∧ 10800 ≠ 2 * 7200 := by decide

/-- C6 (amended): after each quota-exhaustion error the wait grows
linearly by one hour per failure — the `k`-th consecutive quota failure
of a request is followed by a sleep of `min 24 (1 + k)` hours — starting
at 1 hour, capped at 24 hours; every fresh request starts again at
1 hour (the loop is entered with `hours = 1`). -/
theorem c6_quota_backoff : ∀ n : Nat,
    (generateVoiceRetryLoop 1 (List.replicate n TtsAttempt.quotaExceeded ++
      [TtsAttempt.ok 0])).1 =
      (List.range n).map fun k => min 24 (1 + k) * 60 * 60 :=
  fun n => retryLoop_quota_sleeps n 1 (Nat.le_refl 1) (by omega)

/-- C7 counterexample: the manuscript endpoint's response for an unseen
identifier has state `"generating"` but none of its span texts contains
the literal text `"still processing"` (they read "New Article!" and "not
yet generated" instead); the "still processing" wording lives only in the
placeholder stored in the catalog. -/
theorem c7_counterexample :
    (manuscript_endpoint [] "Some_article").1.state = "generating" ∧
    mentions (manuscript_endpoint [] "Some_article").1 "still processing" = false ∧
    mentions (placeholderStored "Some_article") "still processing" = true := by decide

/-- C7 (amended): every read enqueues the identifier; a read of an
uncataloged identifier returns the synthetic new-article response (state
`"generating"`) and upserts a placeholder that does contain "still
processing"; a subsequent read during generation returns that stored
placeholder; and once the worker completes, `update_manuscript` leaves
the manuscript in the catalog with state `"done"`. -/
theorem c7_manuscript_read :
    (∀ (catalog : List (String × Manuscript)) (article_id : String),
      (manuscript_endpoint catalog article_id).2.2 = [article_id]) ∧
    (∀ (catalog : List (String × Manuscript)) (article_id : String),
      get_article catalog article_id = none →
      (manuscript_endpoint catalog article_id).1 = newArticleResponse article_id ∧
      (manuscript_endpoint catalog article_id).1.state = "generating" ∧
      (manuscript_endpoint catalog article_id).2.1 =
        insert_or_replace catalog (placeholderStored article_id)) ∧
    (∀ article_id : String,
      mentions (placeholderStored article_id) "still processing" = true) ∧
    (∀ (catalog : List (String × Manuscript)) (article_id : String),
      underscoreSpaces article_id = article_id →
      get_article (insert_or_replace catalog (placeholderStored article_id)) article_id =
        some (placeholderStored article_id)) ∧
    (∀ (catalog : List (String × Manuscript)) (m : Manuscript) (now : Nat),
      (List.find? (·.1 == m.id) (update_manuscript catalog m now)).map (·.2) =
        some { m with state := "done", lastmod := some now }) := by
  refine ⟨?_, ?_, ?_, ?_, ?_⟩
  · intro catalog article_id
    unfold manuscript_endpoint
    cases get_article catalog article_id <;> rfl
  · intro catalog article_id h
    unfold manuscript_endpoint
    rw [h]
    exact ⟨rfl, rfl, rfl⟩
  · intro article_id
    simp only [mentions, List.any_eq_true]
    refine ⟨stillProcessingParagraph, ?_, by decide⟩
    exact List.mem_cons_of_mem _ (List.mem_cons_self _ _)
  · intro catalog article_id hid
    have h1 : List.find? (fun p => p.1 == article_id)
        (insert_or_replace catalog (placeholderStored article_id)) =
        some (article_id, placeholderStored article_id) :=
      find_insert_or_replace catalog (placeholderStored article_id)
    simp only [get_article, hid]
    by_cases h0 : article_id = ""
    · rw [if_pos h0]
      subst h0
      simp only [HOME_ID]
      rw [h1]
      rfl
    · rw [if_neg h0, h1]
      rfl
  · intro catalog m now
    have h1 : List.find? (·.1 == m.id)
        (update_manuscript catalog m now) =
        some (m.id, { m with state := "done", lastmod := some now }) :=
      find_insert_or_replace catalog { m with state := "done", lastmod := some now }
    rw [h1]
    rfl

/-- Witness for C7: the amended theorem applied to the empty catalog and a
concrete identifier. -/
theorem c7_witness :
    get_article [] "Some_article" = none ∧
    (manuscript_endpoint [] "Some_article").1 = newArticleResponse "Some_article" ∧
    underscoreSpaces "Some_article" = "Some_article" ∧
    get_article (insert_or_replace [] (placeholderStored "Some_article")) "Some_article" =
      some (placeholderStored "Some_article") :=
  ⟨by decide, (c7_manuscript_read.2.1 [] "Some_article" (by decide)).1, by decide,
    c7_manuscript_read.2.2.2.1 [] "Some_article" (by decide)⟩

/-- C8: `manuscript_changed` is irreflexive, holds exactly when the
`{title, url, sections}` projections differ, and is insensitive to every
other field (state, forced voice, progress, timestamps, audio paths). -/
theorem c8_change_detection :
    (∀ a : Manuscript, manuscript_changed a a = false) ∧
    (∀ a b : Manuscript, manuscript_changed a b = true ↔ article_repr a ≠ article_repr b) ∧
    (∀ a b : Manuscript, a.title = b.title → a.url = b.url → a.sections = b.sections →
      manuscript_changed a b = false) := by
  refine ⟨?_, ?_, ?_⟩
  · intro a
    simp [manuscript_changed]
  · intro a b
    simp [manuscript_changed]
  · intro a b h1 h2 h3
    simp [manuscript_changed, article_repr, h1, h2, h3]

/-- Witness for C8: two manuscripts that differ only in state, progress
and timestamp are not "changed". -/
theorem c8_witness :
    manuscript_changed
      ⟨"a", "T", none, "generating", [], none, none, none, none, none, none, none⟩
      ⟨"a", "T", none, "done", [], none, some 1, some 5, none, none, none, none⟩ = false :=
  c8_change_detection.2.2
    ⟨"a", "T", none, "generating", [], none, none, none, none, none, none, none⟩
    ⟨"a", "T", none, "done", [], none, some 1, some 5, none, none, none, none⟩
    rfl rfl rfl

/-- C9 counterexample: a rule set that cannot match any span produced by a
replacement (no `POST_REPLACE` token matches `"x YE"`) is still not
idempotent: in `hiddenMatchSpans` the second occurrence of the phrase
begins inside the first match's window, the first pass jumps over it, and
only the second pass collapses it, so running the corrector twice differs
from running it once. -/
theorem c9_counterexample :
    ((["Year", "of", "the", empirePattern] : List String).all fun tok =>
      !(tokenMatches true postReplaceRegexMatch tok "x YE")) = true ∧
    correctAlignment hiddenMatchSpans =
      [⟨"x YE", 0, 5000⟩, ⟨"Year", 5000, 1000⟩, ⟨"of", 6000, 1000⟩,
       ⟨"the", 7000, 1000⟩, ⟨"Empire,", 8000, 1000⟩] ∧
    correctAlignment (correctAlignment hiddenMatchSpans) ≠
      correctAlignment hiddenMatchSpans := by decide

/-- C9 (amended): for a rule with no leading context (`offset = 0`) whose
pattern tokens cannot match the replacement text, the corrector pass is
idempotent; with a positive offset a match hidden inside a replaced
window can surface in the second pass. -/
theorem c9_idempotence : ∀ (search : List String) (replacement : String)
    (isRegex : Bool) (rm : String → String → Bool), search ≠ [] →
    (∀ tok ∈ search, tokenMatches isRegex rm tok replacement = false) →
    ∀ s : List Span,
    replace_sublist (replace_sublist s search replacement 0 isRegex rm)
        search replacement 0 isRegex rm =
      replace_sublist s search replacement 0 isRegex rm :=
  fun search replacement isRegex rm hs hno s =>
    replace_sublist_idem_aux search replacement isRegex rm hs hno s.length s
      (Nat.le_refl _)

/-- Witness for C9: idempotence at a concrete non-overlapping rule, the
kind used for `ul`/`ol` span collapsing. -/
theorem c9_witness :
    ((["up"] : List String) ≠ []) ∧
    replace_sublist (replace_sublist [⟨"Up", 0, 10⟩] ["up"] "down" 0 false
        (fun _ _ => false)) ["up"] "down" 0 false (fun _ _ => false) =
      replace_sublist [⟨"Up", 0, 10⟩] ["up"] "down" 0 false (fun _ _ => false) :=
  ⟨by decide, c9_idempotence ["up"] "down" false (fun _ _ => false) (by decide)
    (by decide) [⟨"Up", 0, 10⟩]⟩

/-- C10: `generate_error_manuscript` returns state `"error"` and
`generate_disallowed_manuscript` state `"disallowed"` for every ordinary
identifier, but each returns `"done"` when called with its own special
catalog identifier, so the canned pages are cataloged as completed
manuscripts. -/
theorem c10_canned_states :
    (∀ article_id : String, article_id ≠ ERROR_ID →
      (generate_error_manuscript article_id).state = "error") ∧
    (generate_error_manuscript ERROR_ID).state = "done" ∧
    (∀ article_id : String, article_id ≠ DISALLOWED_ID →
      (generate_disallowed_manuscript article_id).state = "disallowed") ∧
    (generate_disallowed_manuscript DISALLOWED_ID).state = "done" := by
  refine ⟨?_, ?_, ?_, ?_⟩
  · intro article_id h
    show (if article_id ≠ ERROR_ID then "error" else "done") = "error"
    rw [if_pos h]
  · show (if ERROR_ID ≠ ERROR_ID then "error" else "done") = "done"
    rw [if_neg (by simp)]
  · intro article_id h
    show (if article_id ≠ DISALLOWED_ID then "disallowed" else "done") = "disallowed"
    rw [if_pos h]
  · show (if DISALLOWED_ID ≠ DISALLOWED_ID then "disallowed" else "done") = "done"
    rw [if_neg (by simp)]

/-- Witness for C10: the ordinary-identifier cases at a concrete
identifier. -/
theorem c10_witness :
    ("Skills" ≠ ERROR_ID) ∧ (generate_error_manuscript "Skills").state = "error" ∧
    ("Skills" ≠ DISALLOWED_ID) ∧
    (generate_disallowed_manuscript "Skills").state = "disallowed" :=
  ⟨by decide, c10_canned_states.1 "Skills" (by decide), by decide,
    c10_canned_states.2.2.1 "Skills" (by decide)⟩

end Winds
